import Mathlib

/-!
Shallow embedding of `scripts/run_rm.py` (reward-model benchmark evaluation).

The file embeds, from the source:
* the model-adapter selection chain (`main`, lines 93-126): an if/elif chain of
  substring checks on the model identifier and the chat-template name, setting
  the `quantized` and `custom_dialogue` run flags and choosing a
  (model_builder, pipeline_builder) pair;
* the execution-mode dispatch (line 285): uniform batched pipeline call versus
  manual batch loop;
* the pairwise scorer (lines 299 and 358-361): verdict 1 iff chosen score is
  strictly greater than rejected score;
* the pairwise-native batch branch (lines 333-342);
* the dialogue formatting map functions (`make_conversation`,
  `map_conversations`, `map_conversations_testsets`, lines 189-213) and the
  dataset `map` with `remove_columns` semantics (lines 204-232);
* the pad-token correction (lines 276-278);
* the per-subset aggregation (lines 373-379).

Python floats are modelled as rationals (only order and exact division matter
for the claims); Python strings as Lean `String`; dataset records as
association lists from column name to value, mirroring Python dicts.
-/

/-- Whether the first char list is a prefix of the second. -/
def charsPrefixOf : List Char → List Char → Bool
  | [], _ => true
  | _ :: _, [] => false
  | a :: as, b :: bs => a == b && charsPrefixOf as bs

/-- Whether the second char list occurs contiguously inside the first. -/
def charsContains : List Char → List Char → Bool
  | [], sub => charsPrefixOf sub []
  | a :: rest, sub => charsPrefixOf sub (a :: rest) || charsContains rest sub

/-- Python's `sub in s` substring test, on strings modelled as char lists. -/
def strContains (s sub : String) : Bool :=
  charsContains s.toList sub.toList

/-- The six adapters selectable by the if/elif chain in `main` (lines 93-126):
five specialized branches and the generic fallback. -/
inductive Adapter where
  | oasst
  | starling
  | openbmb
  | pairRM
  | shp
  | generic
deriving DecidableEq, Repr

/-- One predicate of the chain: `sub in args.model or sub in args.chat_template`. -/
def matchesAdapter (model chat_template sub : String) : Bool :=
  strContains model sub || strContains chat_template sub

/-- The if/elif chain of `main` (lines 96-126): first match wins, generic
fallback last. -/
def adapterFor (model chat_template : String) : Adapter :=
  if matchesAdapter model chat_template "oasst" then .oasst
  else if matchesAdapter model chat_template "Starling" then .starling
  else if matchesAdapter model chat_template "openbmb" then .openbmb
  else if matchesAdapter model chat_template "PairRM" then .pairRM
  else if matchesAdapter model chat_template "SHP" then .shp
  else .generic

/-- `quantized` starts `True` (line 93) and is set to `False` only inside the
Starling branch (line 106). -/
def quantizedFlag (model chat_template : String) : Bool :=
  match adapterFor model chat_template with
  | .starling => false
  | _ => true

/-- `custom_dialogue` starts `False` (line 94) and is set to `True` only inside
the PairRM branch (line 115) and the SHP branch (line 121). -/
def customDialogueFlag (model chat_template : String) : Bool :=
  match adapterFor model chat_template with
  | .pairRM => true
  | .shp => true
  | _ => false

/-- The distinct `pipeline_builder` values assigned by the chain. The oasst
branch (line 100) and the generic fallback (line 126) both use the stock
transformers `pipeline`; the other branches use custom pipeline classes. -/
inductive PipelineBuilderKind where
  | transformersPipeline
  | starlingPipeline
  | openBMBPipeline
  | pairRMPipeline
  | shpPipeline
deriving DecidableEq, Repr

/-- The `pipeline_builder` assigned in each branch of the chain. -/
def pipelineBuilderFor : Adapter → PipelineBuilderKind
  | .oasst => .transformersPipeline
  | .starling => .starlingPipeline
  | .openbmb => .openBMBPipeline
  | .pairRM => .pairRMPipeline
  | .shp => .shpPipeline
  | .generic => .transformersPipeline

/-- Line 285: `if not args.direct_load or pipeline_builder == pipeline:` selects
the uniform batched mode; the `else` branch is the manual batch loop. -/
def usesUniformMode (direct_load : Bool) (model chat_template : String) : Bool :=
  !direct_load || (pipelineBuilderFor (adapterFor model chat_template) == .transformersPipeline)

/-! ## Pairwise scorer -/

/-- The scalar comparison shared by both inference modes:
`1 if chosen > rejected else 0`. -/
def scalarVerdict (chosen rejected : ℚ) : Nat :=
  if chosen > rejected then 1 else 0

/-- Line 299 (uniform batched mode):
`results = [1 if chosen > rejected else 0 for chosen, rejected in zip(score_chosen, score_rejected)]`. -/
def pipelineVerdicts (score_chosen score_rejected : List ℚ) : List Nat :=
  (score_chosen.zip score_rejected).map (fun p => if p.1 > p.2 then 1 else 0)

/-- Lines 358-361 (manual batch loop, non-pairwise-native branch): per batch,
`results.append(1) if chosen > rejected else results.append(0)` over the zipped
score lists, extending the accumulated `results`. -/
def batchAppendVerdicts (results : List Nat) (score_chosen score_rejected : List ℚ) : List Nat :=
  results ++ (score_chosen.zip score_rejected).map (fun p => if p.1 > p.2 then 1 else 0)

/-! ## Pairwise-native branch (lines 333-342) -/

/-- Line 342: `[results.append(1) if result else results.append(0) for result in results_sub...]`
on the pipeline's native boolean judgments for one batch. -/
def nativeVerdicts (results_sub : List Bool) : List Nat :=
  results_sub.map (fun result => if result then 1 else 0)

/-- The manual batch loop in the pairwise-native case: one pipeline call per
batch with the chosen and rejected batches together (line 341), appending that
batch's native verdicts to the single ordered `results` list. -/
def nativeBatchLoop {α : Type} (judge : List α → List α → List Bool)
    (batches : List (List α × List α)) : List Nat :=
  batches.foldl (fun results batch => results ++ nativeVerdicts (judge batch.1 batch.2)) []

/-! ## Pad-token correction (lines 276-278) -/

/-- The observable state touched by the pad-token correction: the pipeline's
tokenizer pad/eos token ids and the model config's pad token id. -/
structure RewardPipeState where
  tokenizerPadTokenId : Option Int
  tokenizerEosTokenId : Option Int
  modelConfigPadTokenId : Option Int
deriving DecidableEq, Repr

/-- Lines 276-278: if `reward_pipe.tokenizer.pad_token_id is None`, set both the
model config's and the tokenizer's pad token id to the tokenizer's eos token id. -/
def setPadTokenToEos (p : RewardPipeState) : RewardPipeState :=
  if p.tokenizerPadTokenId = none then
    { p with
      modelConfigPadTokenId := p.tokenizerEosTokenId,
      tokenizerPadTokenId := p.tokenizerEosTokenId }
  else p

/-! ## Dataset records as Python dicts -/

/-- A conversation turn: `\x7b"role": ..., "content": ...\x7d`. -/
structure Turn where
  role : String
  content : String
deriving DecidableEq, Repr

/-- A column value: either a plain string or a structured turn list. -/
inductive Value where
  | str (s : String)
  | turns (ts : List Turn)
deriving DecidableEq, Repr

/-- A dataset record, modelled as a Python dict: an association list from
column name to value (keys unique, insertion-ordered). -/
abbrev DictRecord : Type := List (String × Value)

/-- `example[k]` lookup: first binding of the key, if any. -/
def DictRecord.get : DictRecord → String → Option Value
  | [], _ => none
  | kv :: rest, k => if kv.1 == k then some kv.2 else DictRecord.get rest k

/-- `example[k] = v` assignment: replace the existing binding in place, or
append a new one at the end, as a Python dict does. -/
def DictRecord.set : DictRecord → String → Value → DictRecord
  | [], k, v => [(k, v)]
  | kv :: rest, k, v =>
    if kv.1 == k then (k, v) :: rest else kv :: DictRecord.set rest k v

/-- The `remove_columns` step of `datasets.Dataset.map`: drop the listed
columns from a mapped record. -/
def removeColumns (cols : List String) (r : DictRecord) : DictRecord :=
  r.filter (fun kv => !(cols.contains kv.1))

/-! ## Dialogue formatting (lines 189-232) -/

/-- Lines 189-191: `make_conversation(prompt, answer)` returns
a user turn holding the prompt followed by an assistant turn holding the answer. -/
def make_conversation (prompt answer : String) : List Turn :=
  [⟨"user", prompt⟩, ⟨"assistant", answer⟩]

/-- Lines 193-196: `map_conversations(example)` sets `text_chosen` and
`text_rejected` from the string fields; a missing or non-string field is a
Python runtime error, modelled as `none`. -/
def map_conversations (ex : DictRecord) : Option DictRecord :=
  match ex.get "prompt", ex.get "chosen", ex.get "rejected" with
  | some (.str prompt), some (.str chosen), some (.str rejected) =>
    some ((ex.set "text_chosen" (.turns (make_conversation prompt chosen))).set
      "text_rejected" (.turns (make_conversation prompt rejected)))
  | _, _, _ => none

/-- Lines 198-202: `map_conversations_testsets(example)`; the prompt is already
a turn list, and the assistant turn is appended to it with `+`. -/
def map_conversations_testsets (ex : DictRecord) : Option DictRecord :=
  match ex.get "prompt", ex.get "chosen", ex.get "rejected" with
  | some (.turns prompt), some (.str chosen), some (.str rejected) =>
    some ((ex.set "text_chosen" (.turns (prompt ++ [⟨"assistant", chosen⟩]))).set
      "text_rejected" (.turns (prompt ++ [⟨"assistant", rejected⟩])))
  | _, _, _ => none

/-- Modelled from the spec: `prepare_dialogue` is imported from the `herm`
package, whose source is not under src/. Per the spec's template strategy it
delegates to the external conversation-template engine (here the abstract
`render` collaborator) to turn prompt+response into a single formatted string,
producing `text_chosen`/`text_rejected`. -/
def prepare_dialogue (render : String → String → String) (ex : DictRecord) :
    Option DictRecord :=
  match ex.get "prompt", ex.get "chosen", ex.get "rejected" with
  | some (.str prompt), some (.str chosen), some (.str rejected) =>
    some ((ex.set "text_chosen" (.str (render prompt chosen))).set
      "text_rejected" (.str (render prompt rejected)))
  | _, _, _ => none

/-- `datasets.Dataset.map(f, remove_columns=cols)`: apply `f` to each record
independently, in order, then drop the listed original columns from each
mapped record. A failing `f` aborts the whole map. -/
def datasetMap (f : DictRecord → Option DictRecord) (cols : List String) :
    List DictRecord → Option (List DictRecord)
  | [] => some []
  | r :: rs =>
    match f r, datasetMap f cols rs with
    | some r', some rs' => some (removeColumns cols r' :: rs')
    | _, _ => none

/-- Line 207: columns removed in the custom-dialogue, preference-test-sets map. -/
def testsetsRemoved : List String :=
  ["prompt", "chosen", "rejected", "subset", "subsubset"]

/-- Line 212: columns removed in the custom-dialogue, benchmark map. -/
def benchmarkRemoved : List String :=
  ["prompt", "chosen", "rejected", "subset"]

/-- Line 230: columns removed in the FastChat template-strategy map. -/
def fastchatRemoved : List String :=
  ["prompt", "chosen", "rejected"]

/-! ## Per-subset aggregation (lines 367-379) -/

/-- One row of `out_dataset` (line 367): the raw record's `subset` label
together with its verdict from the `results` column. -/
structure OutRow where
  subset : String
  result : Nat
deriving DecidableEq, Repr

/-- Helper for `uniqueVals`: keep the first occurrence of each value, tracking
the values already seen. -/
def uniqueValsAux : List String → List String → List String
  | [], _ => []
  | a :: rest, seen =>
    if seen.contains a then uniqueValsAux rest seen
    else a :: uniqueValsAux rest (a :: seen)

/-- `raw_dataset.unique("subset")`: the distinct values of a column, in order
of first appearance. -/
def uniqueVals (l : List String) : List String :=
  uniqueValsAux l []

/-- Line 373: `present_subsets = raw_dataset.unique("subset")`. -/
def presentSubsets (ds : List OutRow) : List String :=
  uniqueVals (ds.map (fun row => row.subset))

/-- Line 375: `out_dataset.filter(lambda example: example["subset"] == subset)`. -/
def subsetRows (ds : List OutRow) (s : String) : List OutRow :=
  ds.filter (fun row => row.subset == s)

/-- Line 376: `num_correct = sum(subset_dataset["results"])`. -/
def subsetNumCorrect (ds : List OutRow) (s : String) : Nat :=
  ((subsetRows ds s).map (fun row => row.result)).sum

/-- Line 377: `num_total = len(subset_dataset["results"])`. -/
def subsetNumTotal (ds : List OutRow) (s : String) : Nat :=
  (subsetRows ds s).length

/-- Line 379: `results[subset] = num_correct / num_total` (true division). -/
def subsetAccuracy (ds : List OutRow) (s : String) : ℚ :=
  (subsetNumCorrect ds s : ℚ) / (subsetNumTotal ds s : ℚ)

/-! ## Concrete data for witnesses -/

/-- A 4-record subset column with verdicts `[1, 0, 1, 1]`. -/
def benchRows : List OutRow :=
  [⟨"alpacaeval-easy", 1⟩, ⟨"alpacaeval-easy", 0⟩, ⟨"alpacaeval-easy", 1⟩, ⟨"alpacaeval-easy", 1⟩]

/-- A small dataset with two distinct subset labels. -/
def prefRows : List OutRow :=
  [⟨"anthropic", 1⟩, ⟨"summarize", 0⟩, ⟨"anthropic", 0⟩]

/-- A benchmark-shaped record with a plain string prompt. -/
def benchRec : DictRecord :=
  [("prompt", .str "P"), ("chosen", .str "C"), ("rejected", .str "R"), ("subset", .str "s1")]

/-- A preference-test-set-shaped record whose prompt is already a turn list. -/
def prefRec : DictRecord :=
  [("prompt", .turns [⟨"user", "P"⟩]), ("chosen", .str "C"), ("rejected", .str "R"),
   ("subset", .str "anthropic"), ("subsubset", .str "helpful-base")]

/-- The formatted image of `benchRec` under the custom-dialogue benchmark map. -/
def fmtRec : DictRecord :=
  [("text_chosen", .turns [⟨"user", "P"⟩, ⟨"assistant", "C"⟩]),
   ("text_rejected", .turns [⟨"user", "P"⟩, ⟨"assistant", "R"⟩])]

/-! # Theorems -/

/-- **C1.** For every scalar score pair from a non-pairwise-native adapter, in
both the uniform batched mode (line 299) and the manual batch-loop mode
(lines 358-361), the verdict is 1 iff the chosen score is strictly greater
than the rejected score and 0 otherwise; in particular a tie yields 0. Both
modes apply the same comparison, elementwise over the positionally zipped
score lists. -/
theorem verdict_strict_gt_both_modes (chosen rejected : ℚ) (results : List Nat)
    (score_chosen score_rejected : List ℚ) :
    (scalarVerdict chosen rejected = 1 ↔ rejected < chosen)
    ∧ (scalarVerdict chosen rejected = 0 ↔ chosen ≤ rejected)
    ∧ scalarVerdict chosen chosen = 0
    ∧ pipelineVerdicts score_chosen score_rejected =
        (score_chosen.zip score_rejected).map (fun p => scalarVerdict p.1 p.2)
    ∧ batchAppendVerdicts results score_chosen score_rejected =
        results ++ pipelineVerdicts score_chosen score_rejected := by
  refine ⟨?_, ?_, ?_, rfl, rfl⟩
  · unfold scalarVerdict
    split_ifs with h <;> simp [h]
  · unfold scalarVerdict
    split_ifs with h
    · simp [not_le.mpr h]
    · simp [not_lt.mp h]
  · simp [scalarVerdict]

/-- **C2 counterexample.** The claim quantifies over the model identifier
alone, but the chain tests the chat template too, and the oasst branch
precedes the Starling branch: a model not containing "Starling" still gets
`quantized = False` when the chat template contains it, and a model containing
both "oasst" and "Starling" keeps `quantized = True`. -/
theorem quantized_claim_counterexample :
    (¬ (strContains "zephyr-7b-beta" "Starling" = false →
        quantizedFlag "zephyr-7b-beta" "Starling-chat" = true))
    ∧ (¬ (strContains "oasstStarling-RM" "Starling" = true →
        quantizedFlag "oasstStarling-RM" "tulu" = false)) := by
  decide

/-- **C2 (amended).** The quantized flag is false exactly when the selection
chain picks the Starling adapter, i.e. when neither the model identifier nor
the chat template contains "oasst" and at least one of them contains
"Starling"; in every other case the flag keeps its initial value true. -/
theorem quantized_false_iff_starling_branch (model chat_template : String) :
    (quantizedFlag model chat_template = false ↔
      adapterFor model chat_template = .starling)
    ∧ (adapterFor model chat_template = .starling ↔
      (matchesAdapter model chat_template "oasst" = false ∧
       matchesAdapter model chat_template "Starling" = true)) := by
  cases h1 : matchesAdapter model chat_template "oasst" <;>
    cases h2 : matchesAdapter model chat_template "Starling" <;>
      cases h3 : matchesAdapter model chat_template "openbmb" <;>
        cases h4 : matchesAdapter model chat_template "PairRM" <;>
          cases h5 : matchesAdapter model chat_template "SHP" <;>
            simp [quantizedFlag, adapterFor, h1, h2, h3, h4, h5]

/-- **C4 counterexample.** With the direct-load flag off and a
Starling-matching model, line 285 takes the uniform batched branch even though
the selected adapter is not the generic pipeline kind. -/
theorem uniform_mode_claim_counterexample :
    ¬ (usesUniformMode false "Starling-RM-7B-alpha" "tulu" = true →
       (adapterFor "Starling-RM-7B-alpha" "tulu" = .generic ∨
        pipelineBuilderFor (adapterFor "Starling-RM-7B-alpha" "tulu") =
          .transformersPipeline)) := by
  decide

/-- **C4 (amended).** The uniform batched mode is used exactly when the
direct-load flag is off or the selected adapter's pipeline builder is the
generic transformers `pipeline` (the oasst adapter and the fallback); the
manual batch loop is used exactly when direct-load is on and the builder is a
custom pipeline class. -/
theorem uniform_mode_iff_not_direct_load_or_generic_builder
    (direct_load : Bool) (model chat_template : String) :
    (usesUniformMode direct_load model chat_template = true ↔
      (direct_load = false ∨
        pipelineBuilderFor (adapterFor model chat_template) = .transformersPipeline))
    ∧ (usesUniformMode direct_load model chat_template = false ↔
      (direct_load = true ∧
        pipelineBuilderFor (adapterFor model chat_template) ≠ .transformersPipeline)) := by
  cases direct_load <;>
    cases h : pipelineBuilderFor (adapterFor model chat_template) <;>
      simp [usesUniformMode, h]

/-- **C8.** The pad-token correction (lines 276-278) is conditional and
idempotent: with no pad token and eos token `e` it sets both the tokenizer's
and the model config's pad token id to `e`; with a pad token already set it
changes nothing; and a second application never changes anything further. -/
theorem pad_token_correction_spec (p : RewardPipeState) (e : Int) :
    (p.tokenizerPadTokenId = none → p.tokenizerEosTokenId = some e →
      (setPadTokenToEos p).tokenizerPadTokenId = some e ∧
      (setPadTokenToEos p).modelConfigPadTokenId = some e)
    ∧ (∀ v : Int, p.tokenizerPadTokenId = some v → setPadTokenToEos p = p)
    ∧ setPadTokenToEos (setPadTokenToEos p) = setPadTokenToEos p := by
  refine ⟨?_, ?_, ?_⟩
  · intro hpad heos
    simp [setPadTokenToEos, hpad, heos]
  · intro v hv
    simp [setPadTokenToEos, hv]
  · cases hp : p.tokenizerPadTokenId with
    | none => cases he : p.tokenizerEosTokenId <;> simp [setPadTokenToEos, hp, he]
    | some v => simp [setPadTokenToEos, hp]

/-- Witness for C8 at the concrete tokenizer of the spec's test:
`pad_token_id = None`, `eos_token_id = 5`. -/
theorem pad_token_correction_spec_witness :
    (setPadTokenToEos ⟨none, some 5, none⟩).tokenizerPadTokenId = some 5 ∧
    (setPadTokenToEos ⟨none, some 5, none⟩).modelConfigPadTokenId = some 5 :=
  (pad_token_correction_spec ⟨none, some 5, none⟩ 5).1 rfl rfl

/-- **C3 counterexample.** The oasst branch precedes the PairRM branch, so a
model identifier containing both "oasst" and "PairRM" leaves the
custom-dialogue flag false. -/
theorem custom_dialogue_claim_counterexample :
    ¬ (strContains "oasst-PairRM" "PairRM" = true →
       customDialogueFlag "oasst-PairRM" "tulu" = true) := by
  decide

/-- **C3 (amended).** The custom-dialogue flag is true exactly when the chain
selects the PairRM or the SHP adapter; a model identifier containing "PairRM"
yields the flag only when no earlier predicate (oasst, Starling, openbmb)
matches either input string. Selection is a deterministic first-match-wins
scan: an oasst match always wins, and with no match at all the generic
fallback is selected; being a function, it selects exactly one adapter. -/
theorem custom_dialogue_iff_pairRM_or_SHP_selected (model chat_template : String) :
    (customDialogueFlag model chat_template = true ↔
      (adapterFor model chat_template = .pairRM ∨ adapterFor model chat_template = .shp))
    ∧ (matchesAdapter model chat_template "oasst" = true →
        adapterFor model chat_template = .oasst)
    ∧ (matchesAdapter model chat_template "oasst" = false →
       matchesAdapter model chat_template "Starling" = false →
       matchesAdapter model chat_template "openbmb" = false →
       matchesAdapter model chat_template "PairRM" = true →
       adapterFor model chat_template = .pairRM ∧
       customDialogueFlag model chat_template = true)
    ∧ (matchesAdapter model chat_template "oasst" = false →
       matchesAdapter model chat_template "Starling" = false →
       matchesAdapter model chat_template "openbmb" = false →
       matchesAdapter model chat_template "PairRM" = false →
       matchesAdapter model chat_template "SHP" = false →
       adapterFor model chat_template = .generic)
    ∧ ∃! a : Adapter, adapterFor model chat_template = a := by
  refine ⟨?_, ?_, ?_, ?_, ⟨adapterFor model chat_template, rfl, fun y hy => hy.symm⟩⟩ <;>
    (cases h1 : matchesAdapter model chat_template "oasst" <;>
      cases h2 : matchesAdapter model chat_template "Starling" <;>
        cases h3 : matchesAdapter model chat_template "openbmb" <;>
          cases h4 : matchesAdapter model chat_template "PairRM" <;>
            cases h5 : matchesAdapter model chat_template "SHP" <;>
              simp [customDialogueFlag, adapterFor, h1, h2, h3, h4, h5])

/-- Witness for C3 (amended) at a PairRM model identifier with the default
chat template. -/
theorem custom_dialogue_iff_pairRM_or_SHP_selected_witness :
    adapterFor "llm-blender/PairRM-hf" "tulu" = .pairRM ∧
    customDialogueFlag "llm-blender/PairRM-hf" "tulu" = true :=
  (custom_dialogue_iff_pairRM_or_SHP_selected "llm-blender/PairRM-hf" "tulu").2.2.1
    (by decide) (by decide) (by decide) (by decide)

/-- Folding batchwise appends of per-batch outputs onto an accumulator equals
the accumulator followed by the concatenation of all per-batch outputs. -/
theorem foldl_append_join {α β : Type} (g : α → List β) (l : List α) (init : List β) :
    l.foldl (fun acc b => acc ++ g b) init = init ++ (l.map g).flatten := by
  induction l generalizing init with
  | nil => simp
  | cons a rest ih => simp [ih, List.append_assoc]

/-- **C9.** In the pairwise-native branch of the manual batch loop
(lines 333-342), the pipeline is called once per batch with the chosen and
rejected batches together and each native boolean judgment is recorded
directly as the verdict, True as 1 and False as 0, in order, with no
scalar-pair comparison; judgments `[True, False, True]` give verdicts
`[1, 0, 1]`, and the loop appends each batch's verdicts to the single ordered
results list. -/
theorem native_pairwise_verdicts_spec {α : Type} (judge : List α → List α → List Bool)
    (batches : List (List α × List α)) (js : List Bool) :
    nativeVerdicts [true, false, true] = [1, 0, 1]
    ∧ (nativeVerdicts js).length = js.length
    ∧ (∀ i, i < js.length →
        (nativeVerdicts js).getD i 0 = if js.getD i false then 1 else 0)
    ∧ nativeBatchLoop judge batches =
        (batches.map (fun b => nativeVerdicts (judge b.1 b.2))).flatten := by
  refine ⟨rfl, by simp [nativeVerdicts], ?_, ?_⟩
  · intro i hi
    rcases h : js[i]? with _ | b
    · exact absurd (List.getElem?_eq_none_iff.mp h) (Nat.not_le.mpr hi)
    · simp [nativeVerdicts, List.getD_eq_getElem?_getD, List.getElem?_map, h]
  · simpa using foldl_append_join (fun b => nativeVerdicts (judge b.1 b.2)) batches []

/-- Witness for C9 at the spec's 3-judgment batch. -/
theorem native_pairwise_verdicts_spec_witness :
    1 < ([true, false, true] : List Bool).length ∧
    (nativeVerdicts [true, false, true]).getD 1 0 =
      if ([true, false, true] : List Bool).getD 1 false then 1 else 0 :=
  ⟨by decide,
   (native_pairwise_verdicts_spec (fun _ _ => ([] : List Bool))
      ([] : List (List Nat × List Nat)) [true, false, true]).2.2.1 1 (by decide)⟩

/-- Membership in `uniqueValsAux`: exactly the values of the list not already
seen. -/
theorem mem_uniqueValsAux (l : List String) : ∀ (seen : List String) (a : String),
    a ∈ uniqueValsAux l seen ↔ (a ∈ l ∧ a ∉ seen) := by
  induction l with
  | nil => intro seen a; simp [uniqueValsAux]
  | cons b rest ih =>
    intro seen a
    by_cases hb : seen.contains b = true
    · have hbmem : b ∈ seen := List.elem_iff.mp hb
      rw [uniqueValsAux, if_pos hb, ih]
      simp only [List.mem_cons]
      constructor
      · rintro ⟨ha, hs⟩
        exact ⟨Or.inr ha, hs⟩
      · rintro ⟨rfl | ha, hs⟩
        · exact absurd hbmem hs
        · exact ⟨ha, hs⟩
    · have hbmem : b ∉ seen := fun hm => hb (List.elem_iff.mpr hm)
      rw [uniqueValsAux, if_neg hb]
      simp only [List.mem_cons, ih, List.mem_cons]
      constructor
      · rintro (rfl | ⟨ha, hs⟩)
        · exact ⟨Or.inl rfl, hbmem⟩
        · exact ⟨Or.inr ha, fun hm => hs (Or.inr hm)⟩
      · rintro ⟨rfl | ha, hs⟩
        · exact Or.inl rfl
        · by_cases hab : a = b
          · exact Or.inl hab
          · exact Or.inr ⟨ha, fun hm => hm.elim hab hs⟩

/-- `present_subsets` holds exactly the values occurring in the subset column. -/
theorem mem_presentSubsets (ds : List OutRow) (s : String) :
    s ∈ presentSubsets ds ↔ s ∈ ds.map OutRow.subset := by
  rw [presentSubsets, uniqueVals, mem_uniqueValsAux]
  simp

/-- Every subset value that occurs in the dataset filters to a nonempty group. -/
theorem subsetNumTotal_pos (ds : List OutRow) (s : String)
    (h : s ∈ presentSubsets ds) : 0 < subsetNumTotal ds s := by
  rw [mem_presentSubsets, List.mem_map] at h
  obtain ⟨r, hr, hs⟩ := h
  have hmem : r ∈ subsetRows ds s := List.mem_filter.mpr ⟨hr, by simp [hs]⟩
  exact List.length_pos.mpr (List.ne_nil_of_mem hmem)

/-- Summing the verdicts of the filtered group equals summing over the whole
dataset with non-matching rows contributing zero. -/
theorem subsetNumCorrect_eq_indicator_sum (ds : List OutRow) (s : String) :
    subsetNumCorrect ds s = (ds.map (fun r => if r.subset = s then r.result else 0)).sum := by
  induction ds with
  | nil => rfl
  | cons a rest ih =>
    rw [subsetNumCorrect, subsetRows, List.filter_cons] at *
    by_cases ha : a.subset = s <;> simp [ha, ih]

/-- **C5.** For every dataset and every subset label occurring in it, the
aggregation (lines 373-379) groups verdicts by the subset column:
`num_correct` is the sum of the verdicts in the group, `num_total` the group's
size, and the reported accuracy is the exact (non-integer) division
`num_correct / num_total`, so that accuracy times `num_total` recovers
`num_correct`. -/
theorem subset_aggregation_exact (ds : List OutRow) (s : String)
    (h : s ∈ presentSubsets ds) :
    subsetNumCorrect ds s = ((ds.filter (fun r => r.subset == s)).map (fun r => r.result)).sum
    ∧ subsetNumTotal ds s = (ds.filter (fun r => r.subset == s)).length
    ∧ subsetNumCorrect ds s = (ds.map (fun r => if r.subset = s then r.result else 0)).sum
    ∧ subsetAccuracy ds s = (subsetNumCorrect ds s : ℚ) / (subsetNumTotal ds s : ℚ)
    ∧ subsetAccuracy ds s * (subsetNumTotal ds s : ℚ) = (subsetNumCorrect ds s : ℚ) := by
  refine ⟨rfl, rfl, subsetNumCorrect_eq_indicator_sum ds s, rfl, ?_⟩
  have hpos : (0 : ℚ) < (subsetNumTotal ds s : ℚ) := by
    exact_mod_cast subsetNumTotal_pos ds s h
  rw [subsetAccuracy]
  exact div_mul_cancel₀ _ hpos.ne'

/-- Witness for C5 at the spec's example: subset "alpacaeval-easy" with
verdicts `[1, 0, 1, 1]` gives `num_correct = 3`, `num_total = 4`,
accuracy `0.75`. -/
theorem subset_aggregation_exact_witness :
    "alpacaeval-easy" ∈ presentSubsets benchRows
    ∧ subsetNumCorrect benchRows "alpacaeval-easy" = 3
    ∧ subsetNumTotal benchRows "alpacaeval-easy" = 4
    ∧ subsetAccuracy benchRows "alpacaeval-easy" = 3 / 4
    ∧ subsetAccuracy benchRows "alpacaeval-easy" *
        (subsetNumTotal benchRows "alpacaeval-easy" : ℚ) =
        (subsetNumCorrect benchRows "alpacaeval-easy" : ℚ) := by
  refine ⟨by decide, by decide, by decide, ?_,
    (subset_aggregation_exact benchRows "alpacaeval-easy" (by decide)).2.2.2.2⟩
  norm_num [subsetAccuracy, subsetNumCorrect, subsetNumTotal, subsetRows, benchRows]

/-- **C10.** For every input dataset, the reported subsets are exactly the
distinct values of the subset column, so every reported group contains at
least one record and the accuracy division never divides by zero. -/
theorem present_subsets_cover_nonempty (ds : List OutRow) (s : String) :
    (s ∈ presentSubsets ds ↔ s ∈ ds.map OutRow.subset)
    ∧ (s ∈ presentSubsets ds → 1 ≤ subsetNumTotal ds s) :=
  ⟨mem_presentSubsets ds s, fun h => subsetNumTotal_pos ds s h⟩

/-- Witness for C10 on a dataset with two distinct subset labels. -/
theorem present_subsets_cover_nonempty_witness :
    ("summarize" ∈ presentSubsets prefRows ↔ "summarize" ∈ prefRows.map OutRow.subset)
    ∧ 1 ≤ subsetNumTotal prefRows "summarize" :=
  ⟨(present_subsets_cover_nonempty prefRows "summarize").1,
   (present_subsets_cover_nonempty prefRows "summarize").2 (by decide)⟩

/-- Looking up the key just assigned returns the assigned value. -/
theorem DictRecord.get_set_self (r : DictRecord) (k : String) (v : Value) :
    (r.set k v).get k = some v := by
  induction r with
  | nil => simp [DictRecord.set, DictRecord.get]
  | cons kv rest ih =>
    by_cases hk : kv.1 == k <;> simp [DictRecord.set, DictRecord.get, hk, ih]

/-- Assigning one key leaves lookups of any other key unchanged. -/
theorem DictRecord.get_set_ne (r : DictRecord) (k k' : String) (v : Value)
    (h : k ≠ k') : (r.set k v).get k' = r.get k' := by
  induction r with
  | nil => simp [DictRecord.set, DictRecord.get, h]
  | cons kv rest ih =>
    by_cases hk : kv.1 == k
    · have : kv.1 = k := by simpa using hk
      simp [DictRecord.set, DictRecord.get, hk, this, h]
    · simp [DictRecord.set, DictRecord.get, hk, ih]

/-- **C6.** Under the structured-turn strategy, for a string prompt `P` and
responses `C`/`R` the formatted fields are the two-turn lists
`[user P, assistant C]` and `[user P, assistant R]` (lines 189-196); in
preference-test-set mode, where the prompt is already a turn list, the
assistant turn is appended to that list rather than replacing it
(lines 198-202). -/
theorem structured_turn_formatting (ex : DictRecord) (p c r : String) (pl : List Turn) :
    (ex.get "prompt" = some (.str p) → ex.get "chosen" = some (.str c) →
      ex.get "rejected" = some (.str r) →
      ∃ out, map_conversations ex = some out
        ∧ out.get "text_chosen" = some (.turns [⟨"user", p⟩, ⟨"assistant", c⟩])
        ∧ out.get "text_rejected" = some (.turns [⟨"user", p⟩, ⟨"assistant", r⟩]))
    ∧ (ex.get "prompt" = some (.turns pl) → ex.get "chosen" = some (.str c) →
      ex.get "rejected" = some (.str r) →
      ∃ out, map_conversations_testsets ex = some out
        ∧ out.get "text_chosen" = some (.turns (pl ++ [⟨"assistant", c⟩]))
        ∧ out.get "text_rejected" = some (.turns (pl ++ [⟨"assistant", r⟩]))) := by
  constructor
  · intro hp hc hr
    unfold map_conversations
    rw [hp, hc, hr]
    refine ⟨_, rfl, ?_, ?_⟩
    · rw [DictRecord.get_set_ne _ _ _ _ (by decide), DictRecord.get_set_self]
      rfl
    · rw [DictRecord.get_set_self]
      rfl
  · intro hp hc hr
    unfold map_conversations_testsets
    rw [hp, hc, hr]
    refine ⟨_, rfl, ?_, ?_⟩
    · rw [DictRecord.get_set_ne _ _ _ _ (by decide), DictRecord.get_set_self]
    · rw [DictRecord.get_set_self]

/-- Witness for C6 on a concrete benchmark record and a concrete
preference-test-set record. -/
theorem structured_turn_formatting_witness :
    (∃ out, map_conversations benchRec = some out
      ∧ DictRecord.get out "text_chosen" = some (.turns [⟨"user", "P"⟩, ⟨"assistant", "C"⟩])
      ∧ DictRecord.get out "text_rejected" = some (.turns [⟨"user", "P"⟩, ⟨"assistant", "R"⟩]))
    ∧ (∃ out, map_conversations_testsets prefRec = some out
      ∧ DictRecord.get out "text_chosen" = some (.turns ([⟨"user", "P"⟩] ++ [⟨"assistant", "C"⟩]))
      ∧ DictRecord.get out "text_rejected" = some (.turns ([⟨"user", "P"⟩] ++ [⟨"assistant", "R"⟩]))) :=
  ⟨(structured_turn_formatting benchRec "P" "C" "R" []).1 (by decide) (by decide) (by decide),
   (structured_turn_formatting prefRec "P" "C" "R" [⟨"user", "P"⟩]).2
     (by decide) (by decide) (by decide)⟩

/-- A removed column is absent from the mapped record. -/
theorem get_removeColumns_of_mem (cols : List String) (r : DictRecord) (k : String)
    (h : k ∈ cols) : (removeColumns cols r).get k = none := by
  induction r with
  | nil => rfl
  | cons kv rest ih =>
    by_cases hk : kv.1 ∈ cols
    · simpa [removeColumns, List.filter_cons, hk] using ih
    · have hne : (kv.1 == k) = false :=
        beq_eq_false_iff_ne.mpr (fun he => hk (he ▸ h))
      simpa [removeColumns, List.filter_cons, hk, DictRecord.get, hne] using ih

/-- `datasets.Dataset.map` with `remove_columns` preserves length and order,
transforms each record independently, and strips the removed columns from
every output record. -/
theorem datasetMap_spec (f : DictRecord → Option DictRecord) (cols : List String) :
    ∀ (ds out : List DictRecord), datasetMap f cols ds = some out →
    out.length = ds.length
    ∧ (∀ i (hi : i < ds.length) (ho : i < out.length),
        ∃ r', f (ds[i]) = some r' ∧ out[i] = removeColumns cols r')
    ∧ (∀ k, k ∈ cols → ∀ r, r ∈ out → DictRecord.get r k = none) := by
  intro ds
  induction ds with
  | nil =>
    intro out h
    rw [datasetMap] at h
    cases h
    refine ⟨rfl, ?_, ?_⟩ <;> simp
  | cons a rest ih =>
    intro out h
    rw [datasetMap] at h
    cases hfa : f a with
    | none => rw [hfa] at h; simp at h
    | some a' =>
      rw [hfa] at h
      cases hrest : datasetMap f cols rest with
      | none => rw [hrest] at h; simp at h
      | some rest' =>
        rw [hrest] at h
        simp only [Option.some.injEq] at h
        subst h
        obtain ⟨hl, hidx, habs⟩ := ih rest' hrest
        refine ⟨by simp [hl], ?_, ?_⟩
        · intro i hi ho
          cases i with
          | zero => exact ⟨a', by simpa using hfa, by simp⟩
          | succ n =>
            simp only [List.length_cons, Nat.succ_lt_succ_iff] at hi ho
            obtain ⟨r', hr1, hr2⟩ := hidx n hi ho
            exact ⟨r', by simpa using hr1, by simpa using hr2⟩
        · intro k hk r hr
          rcases List.mem_cons.mp hr with rfl | hr'
          · exact get_removeColumns_of_mem cols _ k hk
          · exact habs k hk r hr'

/-- **C7.** Dialogue formatting under either strategy — the two custom-dialogue
maps (lines 204-213) and the FastChat template map (lines 227-232, with
`prepare_dialogue` modelled from the spec) — is order-preserving and
field-dropping: `N` records map to `N` formatted records in the same order,
each produced from its own input record alone, and the original `prompt`,
`chosen` and `rejected` columns are absent from every output record. -/
theorem formatting_order_preserving_field_dropping (render : String → String → String)
    (f : DictRecord → Option DictRecord) (cols : List String) (ds out : List DictRecord)
    (hf : (f, cols) ∈ [(map_conversations, benchmarkRemoved),
                       (map_conversations_testsets, testsetsRemoved),
                       (prepare_dialogue render, fastchatRemoved)])
    (h : datasetMap f cols ds = some out) :
    out.length = ds.length
    ∧ (∀ i (hi : i < ds.length) (ho : i < out.length),
        ∃ r', f (ds[i]) = some r' ∧ out[i] = removeColumns cols r')
    ∧ (∀ r, r ∈ out →
        DictRecord.get r "prompt" = none ∧ DictRecord.get r "chosen" = none ∧
        DictRecord.get r "rejected" = none) := by
  obtain ⟨hl, hidx, habs⟩ := datasetMap_spec f cols ds out h
  have hcols : "prompt" ∈ cols ∧ "chosen" ∈ cols ∧ "rejected" ∈ cols := by
    simp only [List.mem_cons, List.not_mem_nil, or_false, Prod.mk.injEq] at hf
    rcases hf with ⟨-, rfl⟩ | ⟨-, rfl⟩ | ⟨-, rfl⟩ <;> exact ⟨by decide, by decide, by decide⟩
  exact ⟨hl, hidx, fun r hr =>
    ⟨habs _ hcols.1 r hr, habs _ hcols.2.1 r hr, habs _ hcols.2.2 r hr⟩⟩

/-- Witness for C7: the singleton dataset `[benchRec]` maps to `[fmtRec]`,
with the original fields gone. -/
theorem formatting_order_preserving_field_dropping_witness :
    ([fmtRec] : List DictRecord).length = ([benchRec] : List DictRecord).length
    ∧ DictRecord.get fmtRec "prompt" = none
    ∧ DictRecord.get fmtRec "chosen" = none
    ∧ DictRecord.get fmtRec "rejected" = none := by
  have h := formatting_order_preserving_field_dropping (fun p a => String.append p a)
    map_conversations benchmarkRemoved [benchRec] [fmtRec]
    (List.mem_cons_self _ _) (by decide)
  obtain ⟨h1, -, h3⟩ := h
  obtain ⟨ha, hb, hc⟩ := h3 fmtRec (List.mem_cons_self _ _)
  exact ⟨h1, ha, hb, hc⟩
